import Mathlib

/-!
Verification development for the miner v0 state-adapter
(`chain/actors/builtin/miner/v0.go`): a read-only query layer over an
immutable miner state snapshot (deadlines → partitions → expiration queues).

Embedding conventions:
* Store-backed collaborators are fallible: each load or bitfield decode is
  an `Except ε` value, where `ε` is the (abstract) type of storage/decode
  errors.  A `BitSet` is the result of decoding a bitfield: either an error
  or the list of set sector numbers.
* Persistent arrays / maps (AMT/HAMT) iterate in ascending key order; they
  are embedded as association lists in that stored order.
* `abi.ChainEpoch` is an `int64`; sector numbers are `uint64`.  Epoch
  values in this layer are only constructed and compared, never subject to
  arithmetic overflow, so they are embedded as `Int` and `Nat`.
* Go callbacks that mutate captured locals (`out`, visitor accumulators)
  become explicit state-passing; the `stopErr` sentinel, compared by
  identity in Go, becomes a dedicated `stop` constructor of the traversal
  result type, distinct from every collaborator error.
-/

namespace Miner0

/-- `abi.ChainEpoch` (an `int64`). -/
abbrev ChainEpoch := Int

instance {ε α : Type} [DecidableEq ε] [DecidableEq α] :
    DecidableEq (Except ε α) := fun x y =>
  match x, y with
  | .error a, .error b =>
    if h : a = b then .isTrue (congrArg Except.error h)
    else .isFalse (fun hc => h (Except.error.inj hc))
  | .ok a, .ok b =>
    if h : a = b then .isTrue (congrArg Except.ok h)
    else .isFalse (fun hc => h (Except.ok.inj hc))
  | .error _, .ok _ => .isFalse (fun hc => Except.noConfusion hc)
  | .ok _, .error _ => .isFalse (fun hc => Except.noConfusion hc)

/-- A store-backed bitfield (`bitfield.BitField`): decoding its RLE+ payload
may fail, so every observation goes through `Except`.  The `ok` payload is
the list of set members. -/
abbrev BitSet (ε : Type) := Except ε (List Nat)

/-- `BitField.IsSet`: membership test on a bitfield, surfacing the decode
error of the bitfield when there is one. -/
def bitIsSet {ε : Type} (b : BitSet ε) (n : Nat) : Except ε Bool :=
  match b with
  | .error e => .error e
  | .ok l => .ok (l.contains n)

/-- `miner0.ExpirationSet`: one entry of a partition's expiration queue. -/
structure ExpirationSet (ε : Type) where
  OnTimeSectors : BitSet ε
  EarlySectors : BitSet ε
deriving DecidableEq

/-- `miner0.Partition`.  `ExpirationsEpochs` is the partition's expiration
queue as loaded by `miner0.LoadExpirationQueue` and iterated by
`q.ForEach`: an error, or the entries as `(quantized epoch, set)` pairs in
ascending stored-key order.  (`QuantSpecForDeadline` only parameterizes the
write path's insertion of keys; the read path iterates the stored keys.) -/
structure Partition (ε : Type) where
  Sectors : BitSet ε
  Faults : BitSet ε
  Recoveries : BitSet ε
  Terminated : BitSet ε
  ExpirationsEpochs : Except ε (List (ChainEpoch × ExpirationSet ε))
deriving DecidableEq

/-- `miner0.Deadline`.  `partitions` is the outcome of
`dl.PartitionsArray(store)` followed by its ordered `ForEach`. -/
structure Deadline (ε : Type) where
  partitions : Except ε (List (Partition ε))
  PostSubmissions : BitSet ε
deriving DecidableEq

/-- The `state0` adapter: a v0 miner state plus its store.  Each
store-backed component is embedded as the outcome of loading it:
* `Deadlines` is the content-addressed root (CID) of the deadlines
  structure, compared by `cid.Equals` in `DeadlinesChanged`;
* `deadlines` is the outcome of `State.LoadDeadlines(store)` plus the
  per-deadline loads performed by `dls.ForEach`;
* `sectors` is the sectors AMT (`SectorNumber → SectorOnChainInfo`),
* `precommits` the precommit HAMT, `allocatedSectors` the decoded
  allocated-sectors bitfield — all as ascending association lists.
`σ` and `π` are the (opaque) sector-info and precommit-info payload types;
`fromV0SectorOnChainInfo` / `fromV0SectorPreCommitOnChainInfo` are identity
casts in the source and are embedded as the identity. -/
structure state0 (ε σ π : Type) where
  Deadlines : Nat
  deadlines : Except ε (List (Deadline ε))
  sectors : Except ε (List (Nat × σ))
  precommits : Except ε (List (Nat × π))
  allocatedSectors : Except ε (List Nat)
deriving DecidableEq

/-- `SectorExpiration` (fields as in the Go struct; the zero value
`SectorExpiration{}` has both epochs 0). -/
structure SectorExpiration where
  OnTime : ChainEpoch
  Early : ChainEpoch
deriving DecidableEq

/-- Result of one level of the nested traversal in `GetSectorExpiration`.
`stop out` is the `stopErr` sentinel (with the `out` accumulator the Go
closure mutated in place); `err e` is a genuine collaborator error. -/
inductive TRes (ε : Type) where
  | ok (out : SectorExpiration)
  | stop (out : SectorExpiration)
  | err (e : ε)
deriving DecidableEq

/-- The queue scan of `GetSectorExpiration` (`q.ForEach` body, v0.go
lines 127–141): check `EarlySectors` first; on a hit record `out.Early`
and `return nil` (move to the next set — the `OnTimeSectors` of this same
set is not consulted); otherwise check `OnTimeSectors`; on a hit record
`out.OnTime` and return the stop sentinel. -/
def scanQueue {ε : Type} (num : Nat) (out : SectorExpiration) :
    List (ChainEpoch × ExpirationSet ε) → TRes ε
  | [] => .ok out
  | (epoch, exp) :: rest =>
    match bitIsSet exp.EarlySectors num with
    | .error e => .err e
    | .ok early =>
      if early then
        scanQueue num { out with Early := epoch } rest
      else
        match bitIsSet exp.OnTimeSectors num with
        | .error e => .err e
        | .ok onTime =>
          if onTime then .stop { out with OnTime := epoch }
          else scanQueue num out rest

/-- The per-partition body (`partitions.ForEach` body, v0.go lines
110–141): skip the partition if `num ∉ Sectors`; stop (terminated, no
forward expiration) if `num ∈ Terminated`; otherwise load the expiration
queue and scan it. -/
def scanPartition {ε : Type} (num : Nat) (out : SectorExpiration)
    (part : Partition ε) : TRes ε :=
  match bitIsSet part.Sectors num with
  | .error e => .err e
  | .ok found =>
    if !found then .ok out
    else
      match bitIsSet part.Terminated num with
      | .error e => .err e
      | .ok term =>
        if term then .stop out
        else
          match part.ExpirationsEpochs with
          | .error e => .err e
          | .ok q => scanQueue num out q

/-- `partitions.ForEach`: ascending-index iteration, short-circuited by
the stop sentinel or an error. -/
def scanPartitions {ε : Type} (num : Nat) (out : SectorExpiration) :
    List (Partition ε) → TRes ε
  | [] => .ok out
  | p :: rest =>
    match scanPartition num out p with
    | .ok out2 => scanPartitions num out2 rest
    | r => r

/-- `dls.ForEach`: ascending-index iteration over the deadlines, each
providing its partitions array (whose load may fail), short-circuited by
the stop sentinel or an error. -/
def scanDeadlines {ε : Type} (num : Nat) (out : SectorExpiration) :
    List (Deadline ε) → TRes ε
  | [] => .ok out
  | dl :: rest =>
    match dl.partitions with
    | .error e => .err e
    | .ok ps =>
      match scanPartitions num out ps with
      | .ok out2 => scanDeadlines num out2 rest
      | r => r

/-- `state0.GetSectorExpiration` (v0.go lines 89–154): load the deadlines,
run the nested traversal from the zero accumulator, convert the stop
sentinel to success (`if err == stopErr { err = nil }`), surface any other
error, and report not-found (`nil, nil`) when neither epoch was recorded. -/
def GetSectorExpiration {ε σ π : Type} (s : state0 ε σ π) (num : Nat) :
    Except ε (Option SectorExpiration) :=
  match s.deadlines with
  | .error e => .error e
  | .ok dls =>
    match scanDeadlines num { OnTime := 0, Early := 0 } dls with
    | .err e => .error e
    | .ok out | .stop out =>
      if out.Early = 0 ∧ out.OnTime = 0 then .ok none else .ok (some out)

/-- Indexed lookup in an association-list-embedded AMT/HAMT
(`arr.Get(idx, &v)`): `none` is the `found = false` outcome. -/
def arrGet {σ : Type} (a : List (Nat × σ)) (i : Nat) : Option σ :=
  (a.find? (fun kv => kv.1 == i)).map (fun kv => kv.2)

/-- `state0.GetSector` (v0.go lines 63–71): lookup in the sectors array;
`!ok` yields `(nil, nil)`, an error is surfaced; the v0→common conversion
is an identity cast. -/
def GetSector {ε σ π : Type} (s : state0 ε σ π) (num : Nat) :
    Except ε (Option σ) :=
  match s.sectors with
  | .error e => .error e
  | .ok arr => .ok (arrGet arr num)

/-- `state0.GetPrecommittedSector` (v0.go lines 156–164): same shape as
`GetSector`, over the precommit map. -/
def GetPrecommittedSector {ε σ π : Type} (s : state0 ε σ π) (num : Nat) :
    Except ε (Option π) :=
  match s.precommits with
  | .error e => .error e
  | .ok m => .ok (arrGet m num)

/-- `state0.IsAllocated` (v0.go lines 221–228): decode the
allocated-sectors bitfield from the store, then `IsSet`. -/
def IsAllocated {ε σ π : Type} (s : state0 ε σ π) (num : Nat) :
    Except ε Bool :=
  match s.allocatedSectors with
  | .error e => .error e
  | .ok l => .ok (l.contains num)

/-- The `other State` argument of `DeadlinesChanged`: either another v0
adapter (the type assertion `other.(*state0)` succeeds) or a state of a
different schema version. -/
inductive OtherState (ε σ π : Type) where
  | v0 (s : state0 ε σ π)
  | otherVersion
deriving DecidableEq

/-- `state0.DeadlinesChanged` (v0.go lines 256–264), exactly as written:
a different schema version is always reported as changed; otherwise the
result is `s.State.Deadlines.Equals(other0.Deadlines)` — equality of the
two content-addressed deadline roots, with no negation. -/
def DeadlinesChanged {ε σ π : Type} (s : state0 ε σ π)
    (other : OtherState ε σ π) : Bool :=
  match other with
  | .otherVersion => true
  | .v0 other0 => s.Deadlines == other0.Deadlines

/-- The `incl` closure of `state0.LoadSectorsFromSet` (v0.go lines
172–184): with no filter every index is included; with a filter, the index
is included iff its membership bit differs from the `filterOut` polarity;
a bitfield decode failure is surfaced (in Go wrapped as
"filter check error: %w"; the wrapping is a message prefix only and is
embedded as the error itself). -/
def incl {ε : Type} (filter : Option (BitSet ε)) (filterOut : Bool)
    (i : Nat) : Except ε Bool :=
  match filter with
  | none => .ok true
  | some f =>
    match bitIsSet f i with
    | .error e => .error e
    | .ok set => .ok (!(set == filterOut))

/-- `GetFunc` of the proxy array returned by `LoadSectorsFromSet` (v0.go
lines 187–199): an excluded index behaves as absent (not an error) even
when the underlying array has a value there; an included index delegates
to the underlying array. -/
def GetFunc {ε σ : Type} (a : List (Nat × σ)) (filter : Option (BitSet ε))
    (filterOut : Bool) (idx : Nat) : Except ε (Option σ) :=
  match incl filter filterOut idx with
  | .error e => .error e
  | .ok false => .ok none
  | .ok true => .ok (arrGet a idx)

/-- `ForEachFunc` of the proxy array (v0.go lines 200–213): iterate the
underlying array in its (ascending) stored order, skip excluded indices,
and invoke the visitor on included ones.  The Go visitor mutates captured
state and signals early stop via an error; it is embedded state-passing,
with `Except` carrying both genuine errors and visitor-requested stops. -/
def ForEachFunc {ε σ α : Type} (a : List (Nat × σ))
    (filter : Option (BitSet ε)) (filterOut : Bool)
    (fn : Nat → α → Except ε α) (acc : α) : Except ε α :=
  match a with
  | [] => .ok acc
  | (i, _) :: rest =>
    match incl filter filterOut i with
    | .error e => .error e
    | .ok false => ForEachFunc rest filter filterOut fn acc
    | .ok true =>
      match fn i acc with
      | .error e => .error e
      | .ok acc2 => ForEachFunc rest filter filterOut fn acc2

/-- The index trace of the proxy array's `ForEachFunc`: run it with a
collecting visitor that never errors. -/
def viewVisited {ε σ : Type} (a : List (Nat × σ))
    (filter : Option (BitSet ε)) (filterOut : Bool) : Except ε (List Nat) :=
  ForEachFunc a filter filterOut (fun i acc => .ok (acc ++ [i])) []

/-- The pure inclusion predicate that `incl` computes when the filter
bitfield decodes successfully (membership bit ≠ polarity flag). -/
def inclPure (flist : Option (List Nat)) (filterOut : Bool) (i : Nat) :
    Bool :=
  match flist with
  | none => true
  | some l => !(l.contains i == filterOut)

/-- A partition that the traversal skips for sector `n`: its `Sectors`
bitfield decodes and does not contain `n` (step (a) of the scan). -/
def partSkips {ε : Type} (p : Partition ε) (n : Nat) : Bool :=
  match bitIsSet p.Sectors n with
  | .ok false => true
  | _ => false

/-- A deadline that the traversal passes through for sector `n` without any
finding: its partitions array loads and every partition skips `n`. -/
def dlSkips {ε : Type} (dl : Deadline ε) (n : Nat) : Bool :=
  match dl.partitions with
  | .ok ps => ps.all (fun p => partSkips p n)
  | .error _ => false

/-- An expiration set in which the queue scan finds nothing for `n`: both
bitfields decode and neither contains `n`. -/
def setMisses {ε : Type} (es : ExpirationSet ε) (n : Nat) : Bool :=
  match bitIsSet es.EarlySectors n, bitIsSet es.OnTimeSectors n with
  | .ok false, .ok false => true
  | _, _ => false

/-! Concrete snapshots (over `ε = σ = π = Nat`) used to instantiate the
general theorems below. -/

/-- A set holding sector 9 both early and on-time: a stale queue entry for
a terminated sector. -/
def staleSet9 : ExpirationSet Nat :=
  { OnTimeSectors := .ok [9], EarlySectors := .ok [9] }

/-- A partition whose `Terminated` still masks sector 9's stale queue
entries. -/
def termPart9 : Partition Nat :=
  { Sectors := .ok [9], Faults := .ok [], Recoveries := .ok [],
    Terminated := .ok [9], ExpirationsEpochs := .ok [(800, staleSet9)] }

/-- A partition containing only sector 1 (on-time at 500): skipped when
any other sector is queried. -/
def otherPart1 : Partition Nat :=
  { Sectors := .ok [1], Faults := .ok [], Recoveries := .ok [],
    Terminated := .ok [],
    ExpirationsEpochs :=
      .ok [(500, { OnTimeSectors := .ok [1], EarlySectors := .ok [] })] }

/-- A deadline holding only `otherPart1`. -/
def otherDl1 : Deadline Nat :=
  { partitions := .ok [otherPart1], PostSubmissions := .ok [] }

/-- A set holding sector 7 both early and on-time at the same epoch. -/
def bothSet7 : ExpirationSet Nat :=
  { OnTimeSectors := .ok [7], EarlySectors := .ok [7] }

/-- A live partition for sector 7 whose queue entry at 800 lists 7 both
early and on-time. -/
def bothPart7 : Partition Nat :=
  { Sectors := .ok [7], Faults := .ok [7], Recoveries := .ok [],
    Terminated := .ok [], ExpirationsEpochs := .ok [(800, bothSet7)] }

/-- State for the C3 counterexample: sector 7 in both `EarlySectors` and
`OnTimeSectors` of the single set at epoch 800. -/
def bothState7 : state0 Nat Nat Nat :=
  { Deadlines := 0,
    deadlines := .ok [{ partitions := .ok [bothPart7], PostSubmissions := .ok [] }],
    sectors := .ok [(7, 70)], precommits := .ok [],
    allocatedSectors := .ok [7] }

/-- Scenario-1 partition: sector 5, on-time at quantized epoch 1000, no
early record; a miss entry at 900 precedes it and a later entry follows. -/
def onTimePart5 : Partition Nat :=
  { Sectors := .ok [5], Faults := .ok [], Recoveries := .ok [],
    Terminated := .ok [],
    ExpirationsEpochs :=
      .ok [(900, { OnTimeSectors := .ok [2], EarlySectors := .ok [] }),
           (1000, { OnTimeSectors := .ok [5], EarlySectors := .ok [] }),
           (1100, { OnTimeSectors := .ok [], EarlySectors := .ok [5] })] }

/-- A state whose deadlines failed to load with error 42. -/
def dlsErrState : state0 Nat Nat Nat :=
  { Deadlines := 0, deadlines := .error 42, sectors := .ok [],
    precommits := .ok [], allocatedSectors := .ok [] }

/-- A deadline whose only partition holds sector 2 but whose expiration
queue failed to load with error 7. -/
def qErrDl : Deadline Nat :=
  { partitions :=
      .ok [{ Sectors := .ok [2], Faults := .ok [], Recoveries := .ok [],
             Terminated := .ok [], ExpirationsEpochs := .error 7 }],
    PostSubmissions := .ok [] }

/-- A state whose only matching partition's expiration queue failed to
load with error 7. -/
def qErrState : state0 Nat Nat Nat :=
  { Deadlines := 0, deadlines := .ok [qErrDl], sectors := .ok [],
    precommits := .ok [], allocatedSectors := .ok [] }

/-- A deadline whose only partition has sector 3 terminated. -/
def stopDl3 : Deadline Nat :=
  { partitions :=
      .ok [{ Sectors := .ok [3], Faults := .ok [], Recoveries := .ok [],
             Terminated := .ok [3], ExpirationsEpochs := .ok [] }],
    PostSubmissions := .ok [] }

/-- A state in which sector 3 is terminated (traversal stops via the
sentinel). -/
def stopState3 : state0 Nat Nat Nat :=
  { Deadlines := 0, deadlines := .ok [stopDl3], sectors := .ok [],
    precommits := .ok [], allocatedSectors := .ok [] }

/-- A deadline whose only partition schedules sector 3 on-time at
quantized epoch 0. -/
def zeroDl3 : Deadline Nat :=
  { partitions :=
      .ok [{ Sectors := .ok [3], Faults := .ok [], Recoveries := .ok [],
             Terminated := .ok [],
             ExpirationsEpochs :=
               .ok [(0, { OnTimeSectors := .ok [3], EarlySectors := .ok [] })] }],
    PostSubmissions := .ok [] }

/-- A state whose only record for sector 3 is an on-time entry genuinely
keyed at quantized epoch 0. -/
def zeroEpochState3 : state0 Nat Nat Nat :=
  { Deadlines := 0, deadlines := .ok [zeroDl3], sectors := .ok [(3, 30)],
    precommits := .ok [], allocatedSectors := .ok [3] }

/-- A small populated state that contains sector 1 but not 2 (and not 42):
sectors array `[1 ↦ 10]`, one precommit `[1 ↦ 100]`, allocated `{1}`,
sector 1 live in the single partition. -/
def popState : state0 Nat Nat Nat :=
  { Deadlines := 0,
    deadlines := .ok [otherDl1],
    sectors := .ok [(1, 10)], precommits := .ok [(1, 100)],
    allocatedSectors := .ok [1] }

/-- Base state for the `DeadlinesChanged` evaluation: deadlines root 5. -/
def cidState5 : state0 Nat Nat Nat :=
  { Deadlines := 5, deadlines := .ok [], sectors := .ok [],
    precommits := .ok [], allocatedSectors := .ok [] }

/-- Same deadlines root 5, different sectors content. -/
def cidState5b : state0 Nat Nat Nat :=
  { Deadlines := 5, deadlines := .ok [], sectors := .ok [(1, 10)],
    precommits := .ok [], allocatedSectors := .ok [1] }

/-- A state whose deadlines root differs (6). -/
def cidState6 : state0 Nat Nat Nat :=
  { Deadlines := 6, deadlines := .ok [], sectors := .ok [],
    precommits := .ok [], allocatedSectors := .ok [] }

theorem partSkips_sectors {ε : Type} {p : Partition ε} {n : Nat}
    (h : partSkips p n = true) : bitIsSet p.Sectors n = .ok false := by
  cases hb : bitIsSet p.Sectors n with
  | error e => simp [partSkips, hb] at h
  | ok b =>
    cases b with
    | false => rfl
    | true => simp [partSkips, hb] at h

theorem dlSkips_parts {ε : Type} {dl : Deadline ε} {n : Nat}
    (h : dlSkips dl n = true) :
    ∃ ps, dl.partitions = .ok ps ∧ ∀ p ∈ ps, partSkips p n = true := by
  cases hd : dl.partitions with
  | error e => simp [dlSkips, hd] at h
  | ok ps =>
    refine ⟨ps, rfl, ?_⟩
    simpa [dlSkips, hd, List.all_eq_true] using h

theorem setMisses_both {ε : Type} {es : ExpirationSet ε} {n : Nat}
    (h : setMisses es n = true) :
    bitIsSet es.EarlySectors n = .ok false ∧
    bitIsSet es.OnTimeSectors n = .ok false := by
  cases he : bitIsSet es.EarlySectors n with
  | error e => simp [setMisses, he] at h
  | ok b =>
    cases b with
    | true => simp [setMisses, he] at h
    | false =>
      cases ho : bitIsSet es.OnTimeSectors n with
      | error e => simp [setMisses, he, ho] at h
      | ok c =>
        cases c with
        | true => simp [setMisses, he, ho] at h
        | false => exact ⟨rfl, rfl⟩

theorem scanPartition_skip {ε : Type} {p : Partition ε} {n : Nat}
    {out : SectorExpiration} (h : partSkips p n = true) :
    scanPartition n out p = .ok out := by
  simp [scanPartition, partSkips_sectors h]

theorem scanPartitions_skip_prefix {ε : Type} {n : Nat}
    {out : SectorExpiration} {ps qs : List (Partition ε)}
    (h : ∀ p ∈ ps, partSkips p n = true) :
    scanPartitions n out (ps ++ qs) = scanPartitions n out qs := by
  induction ps with
  | nil => rfl
  | cons p rest ih =>
    have hp : partSkips p n = true := h p (by simp)
    have hr : ∀ q ∈ rest, partSkips q n = true :=
      fun q hq => h q (by simp [hq])
    simp [scanPartitions, scanPartition_skip hp, ih hr]

theorem scanPartitions_all_skip {ε : Type} {n : Nat}
    {out : SectorExpiration} {ps : List (Partition ε)}
    (h : ∀ p ∈ ps, partSkips p n = true) :
    scanPartitions n out ps = .ok out := by
  induction ps with
  | nil => rfl
  | cons p rest ih =>
    have hp : partSkips p n = true := h p (by simp)
    have hr : ∀ q ∈ rest, partSkips q n = true :=
      fun q hq => h q (by simp [hq])
    simp [scanPartitions, scanPartition_skip hp, ih hr]

theorem scanDeadlines_skip_prefix {ε : Type} {n : Nat}
    {out : SectorExpiration} {ds es : List (Deadline ε)}
    (h : ∀ dl ∈ ds, dlSkips dl n = true) :
    scanDeadlines n out (ds ++ es) = scanDeadlines n out es := by
  induction ds with
  | nil => rfl
  | cons dl rest ih =>
    obtain ⟨ps, hps, hall⟩ := dlSkips_parts (h dl (by simp))
    have hr : ∀ q ∈ rest, dlSkips q n = true :=
      fun q hq => h q (by simp [hq])
    simp [scanDeadlines, hps, scanPartitions_all_skip hall, ih hr]

theorem scanDeadlines_all_skip {ε : Type} {n : Nat}
    {out : SectorExpiration} {ds : List (Deadline ε)}
    (h : ∀ dl ∈ ds, dlSkips dl n = true) :
    scanDeadlines n out ds = .ok out := by
  induction ds with
  | nil => rfl
  | cons dl rest ih =>
    obtain ⟨ps, hps, hall⟩ := dlSkips_parts (h dl (by simp))
    have hr : ∀ q ∈ rest, dlSkips q n = true :=
      fun q hq => h q (by simp [hq])
    simp [scanDeadlines, hps, scanPartitions_all_skip hall, ih hr]

theorem scanQueue_skip_prefix {ε : Type} {n : Nat}
    {out : SectorExpiration} {q1 q2 : List (ChainEpoch × ExpirationSet ε)}
    (h : ∀ es ∈ q1, setMisses es.2 n = true) :
    scanQueue n out (q1 ++ q2) = scanQueue n out q2 := by
  induction q1 with
  | nil => rfl
  | cons hd rest ih =>
    obtain ⟨epoch, exp⟩ := hd
    obtain ⟨he, ho⟩ := setMisses_both (h (epoch, exp) (by simp))
    have hr : ∀ es ∈ rest, setMisses es.2 n = true :=
      fun q hq => h q (by simp [hq])
    simp [scanQueue, he, ho, ih hr]

theorem incl_pure {ε : Type} (fl : Option (List Nat)) (filterOut : Bool)
    (i : Nat) :
    incl (fl.map (Except.ok : List Nat → BitSet ε)) filterOut i =
      .ok (inclPure fl filterOut i) := by
  cases fl <;> rfl

theorem forEach_collect {ε σ : Type} (fl : Option (List Nat))
    (filterOut : Bool) (a : List (Nat × σ)) :
    ∀ acc : List Nat,
      ForEachFunc a (fl.map (Except.ok : List Nat → BitSet ε)) filterOut
        (fun i acc2 => .ok (acc2 ++ [i])) acc =
      .ok (acc ++ (a.map Prod.fst).filter (inclPure fl filterOut)) := by
  induction a with
  | nil => intro acc; simp [ForEachFunc]
  | cons hd rest ih =>
    intro acc
    obtain ⟨i, v⟩ := hd
    by_cases hp : inclPure fl filterOut i = true
    · simp [ForEachFunc, incl_pure, hp, ih]
    · simp only [Bool.not_eq_true] at hp
      simp [ForEachFunc, incl_pure, hp, ih]

theorem getFunc_pure {ε σ : Type} (a : List (Nat × σ)) (fl : Option (List Nat))
    (filterOut : Bool) (i : Nat) :
    GetFunc a (fl.map (Except.ok : List Nat → BitSet ε)) filterOut i =
      .ok (if inclPure fl filterOut i then arrGet a i else none) := by
  by_cases hp : inclPure fl filterOut i = true
  · simp [GetFunc, incl_pure, hp]
  · simp only [Bool.not_eq_true] at hp
    simp [GetFunc, incl_pure, hp]

/-- C1: if the `GetSectorExpiration` traversal reaches a partition whose
`Sectors` bitfield contains `n` and whose `Terminated` bitfield also
contains `n` (every earlier deadline and partition skipping `n`), then the
query returns not-found (`ok none`) with no error — for every continuation
of the traversal (arbitrary later partitions `ps2` and deadlines `ds2` are
never consulted) and for arbitrary expiration-queue contents of the
terminating partition (the queue of `p` is unconstrained). -/
theorem getSectorExpiration_terminated_notFound {ε σ π : Type}
    (ds1 : List (Deadline ε)) (ps1 : List (Partition ε)) (p : Partition ε)
    (ps2 : List (Partition ε)) (ds2 : List (Deadline ε)) (post : BitSet ε)
    (c : Nat) (sec : Except ε (List (Nat × σ)))
    (pc : Except ε (List (Nat × π))) (al : Except ε (List Nat)) (n : Nat)
    (h1 : ∀ dl ∈ ds1, dlSkips dl n = true)
    (h2 : ∀ q ∈ ps1, partSkips q n = true)
    (h3 : bitIsSet p.Sectors n = .ok true)
    (h4 : bitIsSet p.Terminated n = .ok true) :
    GetSectorExpiration
      { Deadlines := c,
        deadlines := .ok (ds1 ++
          { partitions := .ok (ps1 ++ p :: ps2),
            PostSubmissions := post } :: ds2),
        sectors := sec, precommits := pc, allocatedSectors := al } n =
      .ok none := by
  simp [GetSectorExpiration, scanDeadlines_skip_prefix h1, scanDeadlines,
    scanPartitions_skip_prefix h2, scanPartitions, scanPartition, h3, h4]

theorem getSectorExpiration_terminated_notFound_witness :
    GetSectorExpiration
      { Deadlines := 0,
        deadlines := .ok ([otherDl1] ++
          { partitions := .ok ([otherPart1] ++ termPart9 :: [otherPart1]),
            PostSubmissions := (.ok [] : BitSet Nat) } :: [otherDl1]),
        sectors := (.ok [] : Except Nat (List (Nat × Nat))),
        precommits := (.ok [] : Except Nat (List (Nat × Nat))),
        allocatedSectors := .ok [] } 9 = .ok none :=
  getSectorExpiration_terminated_notFound [otherDl1] [otherPart1] termPart9
    [otherPart1] [otherDl1] (.ok []) 0 (.ok []) (.ok []) (.ok []) 9
    (by decide) (by decide) (by decide) (by decide)

/-- C3 is false as stated: with sector 7 in both `EarlySectors` and
`OnTimeSectors` of the single expiration set at epoch 800, the scan
records only `Early = 800` and leaves `OnTime = 0` — it does not yield
both epochs equal to 800, because after an early hit the code moves to the
next set without checking `OnTimeSectors` of the same set. -/
theorem scanEarly_same_set_counterexample :
    GetSectorExpiration bothState7 7 = .ok (some { OnTime := 0, Early := 800 }) ∧
    GetSectorExpiration bothState7 7 ≠ .ok (some { OnTime := 800, Early := 800 }) := by
  decide

/-- C3 amended: when the queried sector is found in an expiration set's
`EarlySectors`, the scan records `Early = thisEpoch` and continues with
the remaining sets without aborting — but it skips the `OnTimeSectors`
check of that same set (the right-hand side scans only `rest` and is
independent of `exp.OnTimeSectors`), so a sector in both bitfields of one
set yields only the early epoch from that set. -/
theorem scanQueue_early_records_and_continues {ε : Type} (n : Nat)
    (out : SectorExpiration) (e : ChainEpoch) (exp : ExpirationSet ε)
    (rest : List (ChainEpoch × ExpirationSet ε))
    (h : bitIsSet exp.EarlySectors n = .ok true) :
    scanQueue n out ((e, exp) :: rest) =
      scanQueue n { out with Early := e } rest := by
  simp [scanQueue, h]

theorem scanQueue_early_records_and_continues_witness :
    scanQueue 7 { OnTime := 0, Early := 0 } [((800 : ChainEpoch), bothSet7)] =
      scanQueue 7 { OnTime := 0, Early := 800 } [] :=
  scanQueue_early_records_and_continues 7 { OnTime := 0, Early := 0 } 800
    bothSet7 [] (by decide)

/-- C4: when the traversal reaches an expiration set at quantized epoch
`e` whose `OnTimeSectors` contains `n` (the sector live and not terminated
in that partition, `n` missing from `EarlySectors` of that set, everything
earlier skipping or missing `n`), the scan records `OnTime = e` and aborts
the queue scan and the whole outer traversal — the remaining sets `q2`,
partitions `ps2` and deadlines `ds2` are arbitrary and never consulted —
returning `{OnTime := e, Early := 0}` (for a nonzero quantized epoch; the
`e = 0` sentinel collision is treated separately). -/
theorem getSectorExpiration_onTime_found {ε σ π : Type}
    (ds1 : List (Deadline ε)) (ps1 : List (Partition ε)) (p : Partition ε)
    (ps2 : List (Partition ε)) (ds2 : List (Deadline ε)) (post : BitSet ε)
    (c : Nat) (sec : Except ε (List (Nat × σ)))
    (pc : Except ε (List (Nat × π))) (al : Except ε (List Nat)) (n : Nat)
    (q1 : List (ChainEpoch × ExpirationSet ε)) (e : ChainEpoch)
    (exp : ExpirationSet ε) (q2 : List (ChainEpoch × ExpirationSet ε))
    (h1 : ∀ dl ∈ ds1, dlSkips dl n = true)
    (h2 : ∀ q ∈ ps1, partSkips q n = true)
    (h3 : bitIsSet p.Sectors n = .ok true)
    (h4 : bitIsSet p.Terminated n = .ok false)
    (h5 : p.ExpirationsEpochs = .ok (q1 ++ (e, exp) :: q2))
    (h6 : ∀ es ∈ q1, setMisses es.2 n = true)
    (h7 : bitIsSet exp.EarlySectors n = .ok false)
    (h8 : bitIsSet exp.OnTimeSectors n = .ok true)
    (h9 : e ≠ 0) :
    GetSectorExpiration
      { Deadlines := c,
        deadlines := .ok (ds1 ++
          { partitions := .ok (ps1 ++ p :: ps2),
            PostSubmissions := post } :: ds2),
        sectors := sec, precommits := pc, allocatedSectors := al } n =
      .ok (some { OnTime := e, Early := 0 }) := by
  simp [GetSectorExpiration, scanDeadlines_skip_prefix h1, scanDeadlines,
    scanPartitions_skip_prefix h2, scanPartitions, scanPartition, h3, h4,
    h5, scanQueue_skip_prefix h6, scanQueue, h7, h8, h9]

theorem getSectorExpiration_onTime_found_witness :
    GetSectorExpiration
      { Deadlines := 0,
        deadlines := .ok ([otherDl1] ++
          { partitions := .ok ([otherPart1] ++ onTimePart5 :: [termPart9]),
            PostSubmissions := (.ok [] : BitSet Nat) } :: [otherDl1]),
        sectors := (.ok [] : Except Nat (List (Nat × Nat))),
        precommits := (.ok [] : Except Nat (List (Nat × Nat))),
        allocatedSectors := .ok [] } 5 =
      .ok (some { OnTime := 1000, Early := 0 }) :=
  getSectorExpiration_onTime_found [otherDl1] [otherPart1] onTimePart5
    [termPart9] [otherDl1] (.ok []) 0 (.ok []) (.ok []) (.ok []) 5
    [(900, { OnTimeSectors := .ok [2], EarlySectors := .ok [] })] 1000
    { OnTimeSectors := .ok [5], EarlySectors := .ok [] }
    [(1100, { OnTimeSectors := .ok [], EarlySectors := .ok [5] })]
    (by decide) (by decide) (by decide) (by decide) (by decide) (by decide)
    (by decide) (by decide) (by decide)

/-- C6: failure semantics of `GetSectorExpiration`.  (1) A deadlines-load
error is returned unchanged (with a nil result, as the error case of
`Except` carries no partial findings).  (2) A collaborator error raised
anywhere inside the traversal is returned unchanged.  (3) The internal
stop sentinel is always converted to a non-error success before returning.
(4) Conversely, every error the query surfaces is a collaborator error
from the deadlines load or the traversal — never the sentinel. -/
theorem getSectorExpiration_error_propagation {ε σ π : Type}
    (s : state0 ε σ π) (n : Nat) :
    (∀ e, s.deadlines = .error e → GetSectorExpiration s n = .error e) ∧
    (∀ dls e, s.deadlines = .ok dls →
      scanDeadlines n { OnTime := 0, Early := 0 } dls = .err e →
      GetSectorExpiration s n = .error e) ∧
    (∀ dls out, s.deadlines = .ok dls →
      scanDeadlines n { OnTime := 0, Early := 0 } dls = .stop out →
      ∃ r, GetSectorExpiration s n = .ok r) ∧
    (∀ e, GetSectorExpiration s n = .error e →
      s.deadlines = .error e ∨
      ∃ dls, s.deadlines = .ok dls ∧
        scanDeadlines n { OnTime := 0, Early := 0 } dls = .err e) := by
  refine ⟨?_, ?_, ?_, ?_⟩
  · intro e he
    simp [GetSectorExpiration, he]
  · intro dls e hd hs
    simp [GetSectorExpiration, hd, hs]
  · intro dls out hd hs
    by_cases hc : out.Early = 0 ∧ out.OnTime = 0
    · exact ⟨none, by simp [GetSectorExpiration, hd, hs, hc]⟩
    · exact ⟨some out, by simp [GetSectorExpiration, hd, hs, hc]⟩
  · intro e he
    cases hd : s.deadlines with
    | error e2 =>
      left
      simp [GetSectorExpiration, hd] at he
      rw [he]
    | ok dls =>
      right
      cases hs : scanDeadlines n { OnTime := 0, Early := 0 } dls with
      | ok out =>
        by_cases hc : out.Early = 0 ∧ out.OnTime = 0 <;>
          simp [GetSectorExpiration, hd, hs, hc] at he
      | stop out =>
        by_cases hc : out.Early = 0 ∧ out.OnTime = 0 <;>
          simp [GetSectorExpiration, hd, hs, hc] at he
      | err e2 =>
        refine ⟨dls, rfl, ?_⟩
        simp [GetSectorExpiration, hd, hs] at he
        rw [hs, he]

theorem getSectorExpiration_error_propagation_witness :
    GetSectorExpiration dlsErrState 1 = .error 42 ∧
    GetSectorExpiration qErrState 2 = .error 7 ∧
    ∃ r, GetSectorExpiration stopState3 3 = .ok r :=
  ⟨(getSectorExpiration_error_propagation dlsErrState 1).1 42 rfl,
   (getSectorExpiration_error_propagation qErrState 2).2.1 [qErrDl] 7 rfl
     (by decide),
   (getSectorExpiration_error_propagation stopState3 3).2.2.1 [stopDl3]
     { OnTime := 0, Early := 0 } rfl (by decide)⟩

/-- C7: absence is never an error.  When the respective collection loads
and has no entry for `n`, `GetSector` and `GetPrecommittedSector` return
the distinguished empty result `ok none`; and either can surface an error
only when its backing collection itself failed to load. -/
theorem getSector_absent_notError {ε σ π : Type} (s : state0 ε σ π)
    (n : Nat) :
    (∀ arr, s.sectors = .ok arr → arrGet arr n = none →
      GetSector s n = .ok none) ∧
    (∀ e, GetSector s n = .error e → s.sectors = .error e) ∧
    (∀ m, s.precommits = .ok m → arrGet m n = none →
      GetPrecommittedSector s n = .ok none) ∧
    (∀ e, GetPrecommittedSector s n = .error e → s.precommits = .error e) := by
  refine ⟨?_, ?_, ?_, ?_⟩
  · intro arr ha hn
    simp [GetSector, ha, hn]
  · intro e he
    cases ha : s.sectors with
    | error e2 =>
      simp [GetSector, ha] at he
      rw [he]
    | ok arr => simp [GetSector, ha] at he
  · intro m hm hn
    simp [GetPrecommittedSector, hm, hn]
  · intro e he
    cases hm : s.precommits with
    | error e2 =>
      simp [GetPrecommittedSector, hm] at he
      rw [he]
    | ok m => simp [GetPrecommittedSector, hm] at he

theorem getSector_absent_notError_witness :
    GetSector popState 2 = .ok none ∧
    GetPrecommittedSector popState 2 = .ok none :=
  ⟨(getSector_absent_notError popState 2).1 [(1, 10)] rfl (by decide),
   (getSector_absent_notError popState 2).2.2.1 [(1, 100)] rfl (by decide)⟩

/-- C8: a never-allocated sector — absent from the sectors array, from the
allocated-sectors bitfield, and from every partition's `Sectors` — yields
`GetSector = ok none`, `IsAllocated = ok false` and
`GetSectorExpiration = ok none`, all without error. -/
theorem neverAllocated_notFound {ε σ π : Type} (s : state0 ε σ π) (n : Nat)
    (arr : List (Nat × σ)) (al : List Nat) (dls : List (Deadline ε))
    (h1 : s.sectors = .ok arr) (h2 : arrGet arr n = none)
    (h3 : s.allocatedSectors = .ok al) (h4 : al.contains n = false)
    (h5 : s.deadlines = .ok dls)
    (h6 : ∀ dl ∈ dls, dlSkips dl n = true) :
    GetSector s n = .ok none ∧ IsAllocated s n = .ok false ∧
    GetSectorExpiration s n = .ok none := by
  refine ⟨by simp [GetSector, h1, h2], ?_, ?_⟩
  · have h4b : n ∉ al := by simpa using h4
    simp [IsAllocated, h3, h4b]
  · simp [GetSectorExpiration, h5, scanDeadlines_all_skip h6]

theorem neverAllocated_notFound_witness :
    GetSector popState 42 = .ok none ∧ IsAllocated popState 42 = .ok false ∧
    GetSectorExpiration popState 42 = .ok none :=
  neverAllocated_notFound popState 42 [(1, 10)] [1] [otherDl1]
    rfl (by decide) rfl (by decide) rfl (by decide)

/-- C9: the zero-epoch sentinel collision.  Whenever the traversal
completes (normally or via the stop sentinel) with both recorded epochs
equal to 0 — in particular when the sector's only records sit at quantized
epoch 0 — `GetSectorExpiration` reports not-found (`ok none`): a record
genuinely keyed at epoch 0 is indistinguishable from having no record. -/
theorem getSectorExpiration_zeroEpoch_notFound {ε σ π : Type}
    (s : state0 ε σ π) (n : Nat) (dls : List (Deadline ε))
    (h1 : s.deadlines = .ok dls)
    (h2 : scanDeadlines n { OnTime := 0, Early := 0 } dls =
            .ok { OnTime := 0, Early := 0 } ∨
          scanDeadlines n { OnTime := 0, Early := 0 } dls =
            .stop { OnTime := 0, Early := 0 }) :
    GetSectorExpiration s n = .ok none := by
  rcases h2 with h2 | h2 <;> simp [GetSectorExpiration, h1, h2]

theorem getSectorExpiration_zeroEpoch_notFound_witness :
    GetSectorExpiration zeroEpochState3 3 = .ok none :=
  getSectorExpiration_zeroEpoch_notFound zeroEpochState3 3 [zeroDl3] rfl
    (Or.inr (by decide))

/-- C2 (code bug, evaluated as written): `DeadlinesChanged` returns the
raw `Deadlines.Equals` result with the negation missing — `true` for two
v0 states whose deadlines roots are identical (claim requires `false`) and
`false` for states whose roots differ (claim requires `true`); only the
cross-schema-version case (conservatively `true`) behaves as claimed. -/
theorem deadlinesChanged_asWritten :
    DeadlinesChanged cidState5 (.v0 cidState5b) = true ∧
    DeadlinesChanged cidState5 (.v0 cidState6) = false ∧
    DeadlinesChanged cidState5 .otherVersion = true := by
  decide

/-- C5: FilteredArrayView round-trip.  For an underlying array `a` (keys
in ascending order, as the AMT iterates) and an inclusion predicate built
from a decodable bitfield filter with polarity `filterOut` (or no filter),
the view's `ForEachFunc` visits exactly the keys of `a` on which the
predicate holds, in ascending order, and `GetFunc i` returns the
underlying value when the predicate holds at `i` and not-found (`ok none`,
not an error) when it does not — even if `a` has a value at `i`. -/
theorem loadSectorsFromSet_roundtrip {ε σ : Type} (a : List (Nat × σ))
    (fl : Option (List Nat)) (filterOut : Bool)
    (hs : (a.map Prod.fst).Sorted (· < ·)) :
    viewVisited a (fl.map (Except.ok : List Nat → BitSet ε)) filterOut =
      .ok ((a.map Prod.fst).filter (inclPure fl filterOut)) ∧
    ((a.map Prod.fst).filter (inclPure fl filterOut)).Sorted (· < ·) ∧
    ∀ i, GetFunc a (fl.map (Except.ok : List Nat → BitSet ε)) filterOut i =
      .ok (if inclPure fl filterOut i then arrGet a i else none) := by
  refine ⟨?_, hs.filter _, fun i => getFunc_pure a fl filterOut i⟩
  have h := forEach_collect (ε := ε) (σ := σ) fl filterOut a []
  simpa [viewVisited] using h

theorem loadSectorsFromSet_roundtrip_witness :
    viewVisited ([(1, 10), (2, 20), (3, 30)] : List (Nat × Nat))
        ((some [2]).map (Except.ok : List Nat → BitSet Nat)) false =
      .ok ((([(1, 10), (2, 20), (3, 30)] : List (Nat × Nat)).map
        Prod.fst).filter (inclPure (some [2]) false)) ∧
    ((([(1, 10), (2, 20), (3, 30)] : List (Nat × Nat)).map
        Prod.fst).filter (inclPure (some [2]) false)).Sorted (· < ·) ∧
    ∀ i, GetFunc ([(1, 10), (2, 20), (3, 30)] : List (Nat × Nat))
        ((some [2]).map (Except.ok : List Nat → BitSet Nat)) false i =
      .ok (if inclPure (some [2]) false i
           then arrGet ([(1, 10), (2, 20), (3, 30)] : List (Nat × Nat)) i
           else none) :=
  loadSectorsFromSet_roundtrip [(1, 10), (2, 20), (3, 30)] (some [2]) false
    (by decide)

/-- C10: with a nil filter the inclusion predicate accepts every index for
either polarity (no filter-check error can occur), so the view's `GetFunc`
agrees with the underlying array at every index and its `ForEachFunc`
visits every key of the underlying array. -/
theorem loadSectorsFromSet_nilFilter {ε σ : Type} (a : List (Nat × σ))
    (filterOut : Bool) :
    (∀ i, incl (none : Option (BitSet ε)) filterOut i = .ok true) ∧
    (∀ i, GetFunc a (none : Option (BitSet ε)) filterOut i =
      .ok (arrGet a i)) ∧
    viewVisited a (none : Option (BitSet ε)) filterOut =
      .ok (a.map Prod.fst) := by
  refine ⟨fun i => rfl, fun i => rfl, ?_⟩
  have h := forEach_collect (ε := ε) (σ := σ) none filterOut a []
  have h2 : (a.map Prod.fst).filter (inclPure none filterOut) = a.map Prod.fst :=
    List.filter_eq_self.mpr (fun x hx => rfl)
  simpa [viewVisited, h2] using h

end Miner0
